import Mathlib

/-!
Verification development for the deferred-interrupt-processing scheduler core
and its collaborators (tasklet wait primitive, hwmon telemetry front-end,
atomic scaler setup) of the intel-gpu-i915-backports repository.

The C sources are shallowly embedded: pure computations become Lean functions,
register and lock effects become explicit event traces, machine integers are
Nat with explicit truncation where overflow matters, and the concurrent
environment (state words written by other processors, hardware register
reads) is passed in as explicit observation inputs.
-/

namespace Tasklet

/-! ## Embedding of tasklet_unlock_spin_wait (kernel/softirq.c excerpt)

The unit's `state` word is mutated concurrently by the processor running the
tasklet, so the successive values the waiter's test_bit reads observe are
supplied as an explicit observation list `obs` (the interference schedule).
The waiter's own local per-processor state (bottom-half disable count, local
tasklet queue) is threaded through, and every effect the function performs
is recorded in an event trace. -/

def TASKLET_STATE_SCHED : Nat := 0

def TASKLET_STATE_RUN : Nat := 1

/-- C test_bit(n, addr): read bit `n` of the word. -/
def test_bit (n : Nat) (w : Nat) : Bool := Nat.testBit w n

/-- Effects a softirq/tasklet primitive can perform.  The write-side
constructors (`setStateBit`, `clearStateBit`, `enqueueUnit`, `dequeueUnit`,
`runUnit`) are the vocabulary used by the scheduler's mutating operations;
the wait primitive is expected to emit none of them. -/
inductive Event where
  | readState (v : Nat)
  | bhDisable
  | bhEnable
  | cpuRelax
  | setStateBit (b : Nat)
  | clearStateBit (b : Nat)
  | enqueueUnit (id : Nat)
  | dequeueUnit (id : Nat)
  | runUnit (id : Nat)
deriving DecidableEq

/-- Does the event write the unit's state word, touch the local queue, or run
the unit?  Read-only observations and yields do not. -/
def Event.writesUnit : Event → Bool
  | .setStateBit _ => true
  | .clearStateBit _ => true
  | .enqueueUnit _ => true
  | .dequeueUnit _ => true
  | .runUnit _ => true
  | .readState _ => false
  | .bhDisable => false
  | .bhEnable => false
  | .cpuRelax => false

/-- Local per-processor scheduler state visible to the waiter. -/
structure LocalCpu where
  bhCount : Nat
  queue : List Nat
deriving DecidableEq

/-- Embedding of `tasklet_unlock_spin_wait` from the source: spin while
test_bit(TASKLET_STATE_RUN, state) holds; under CONFIG_PREEMPT_RT (`rt`)
each iteration does local_bh_disable(); local_bh_enable(), otherwise
cpu_relax().  Returns the state word observed at exit (`none` when the
observation schedule runs out while the bit is still set, i.e. the loop is
still spinning), the final local state, and the event trace. -/
def tasklet_unlock_spin_wait (rt : Bool) :
    List Nat → LocalCpu → Option Nat × LocalCpu × List Event
  | [], cpu => (none, cpu, [])
  | v :: obs, cpu =>
    if test_bit TASKLET_STATE_RUN v then
      if rt then
        let cpu1 : LocalCpu := { cpu with bhCount := cpu.bhCount + 1 }
        let cpu2 : LocalCpu := { cpu1 with bhCount := cpu1.bhCount - 1 }
        let r := tasklet_unlock_spin_wait rt obs cpu2
        (r.1, r.2.1, Event.readState v :: Event.bhDisable :: Event.bhEnable :: r.2.2)
      else
        let r := tasklet_unlock_spin_wait rt obs cpu
        (r.1, r.2.1, Event.readState v :: Event.cpuRelax :: r.2.2)
    else
      (some v, cpu, [Event.readState v])

/-- Per-iteration yield events as the spec describes them: with the
preempt-RT flag a disable() immediately followed by the matching enable(),
without it a plain processor relax. -/
def specYieldEvents (rt : Bool) : List Event :=
  if rt then [Event.bhDisable, Event.bhEnable] else [Event.cpuRelax]

/-- Spec-side description of the wait trace: one read per iteration, each
spinning iteration followed by the configured yield events. -/
def specWaitTrace (rt : Bool) : List Nat → List Event
  | [] => []
  | v :: obs =>
    if test_bit TASKLET_STATE_RUN v then
      (Event.readState v :: specYieldEvents rt) ++ specWaitTrace rt obs
    else
      [Event.readState v]

end Tasklet

namespace Sched

/-! ## Spec-modelled scheduler core

The schedule/dispatch/disable-enable paths of the scheduler core
(tasklet_schedule, tasklet_action, __do_softirq, local_bh_disable,
local_bh_enable) are not among the provided source files — only their wait
primitive is — so the definitions in this namespace are modelled from the
specification's own description of those operations. -/

/-- Modelled from the spec: the run-state of a DynamicWorkUnit
(IDLE | SCHEDULED | RUNNING | SCHEDULED_RUN_PENDING). -/
inductive UnitState where
  | idle
  | scheduled
  | running
  | schedRunPending
deriving DecidableEq

/-- Modelled from the spec: `schedule(unit)` — IDLE→SCHEDULED; already
SCHEDULED stays SCHEDULED (idempotent); RUNNING→SCHEDULED_RUN_PENDING;
SCHEDULED_RUN_PENDING stays (coalesced).  `tasklet_schedule` itself is not
among the provided sources. -/
def schedule : UnitState → UnitState
  | .idle => .scheduled
  | .scheduled => .scheduled
  | .running => .schedRunPending
  | .schedRunPending => .schedRunPending

/-- `schedule` applied `n` times. -/
def scheduleN : Nat → UnitState → UnitState
  | 0, s => s
  | n + 1, s => scheduleN n (schedule s)

/-- Modelled from the spec: number of additional runs the dispatcher grants
after the current run completes — exactly one when the unit was re-scheduled
during the run (SCHEDULED_RUN_PENDING), none otherwise. -/
def runsAfterComplete : UnitState → Nat
  | .schedRunPending => 1
  | .running => 0
  | .idle => 0
  | .scheduled => 0

/-- Modelled from the spec: one Dispatch Loop pass — capture the pending
bitmask, clear it, run each set class's handler in declaration order;
`reraise c` is the pending mask that class `c`'s handler raises while it
runs, and the pass returns the union of everything raised during it.
`__do_softirq` itself is not among the provided sources. -/
def runPass (reraise : Nat → Nat) (nr : Nat) (pending : Nat) : Nat :=
  (List.range nr).foldl
    (fun acc c => if Nat.testBit pending c then acc ||| reraise c else acc) 0

/-- Outcome of the inline Dispatch Loop. -/
structure LoopOut where
  pending : Nat
  workerWoken : Bool
  passes : Nat
deriving DecidableEq

/-- Modelled from the spec: the inline Dispatch Loop with a configured retry
count `budget`.  Each pass clears and processes the pending set; if new bits
were raised and retries remain it reprocesses, otherwise it stops, leaving
the remaining pending bits set and waking the Background Worker. -/
def dispatchLoop (reraise : Nat → Nat) (nr : Nat) : Nat → Nat → LoopOut
  | 0, pending => ⟨pending, decide (pending ≠ 0), 0⟩
  | b + 1, pending =>
    if pending = 0 then ⟨0, false, 0⟩
    else
      let p := runPass reraise nr pending
      if p = 0 then ⟨0, false, 1⟩
      else if b = 0 then ⟨p, true, 1⟩
      else
        let r := dispatchLoop reraise nr b p
        ⟨r.pending, r.workerWoken, r.passes + 1⟩

/-- Per-processor bottom-half disable/drain state. -/
structure BhState where
  count : Nat
  pending : Nat
  inIrq : Bool
  drainAttempts : Nat
deriving DecidableEq

/-- Modelled from the spec: `disable()` increments the per-processor
nesting counter.  `local_bh_disable` is not among the provided sources. -/
def bh_disable (s : BhState) : BhState := { s with count := s.count + 1 }

/-- Modelled from the spec: `enable()` decrements the nesting counter; on
reaching zero it must attempt to drain pending work before returning, unless
executing in interrupt context, in which case the drain is deferred.
`local_bh_enable` is not among the provided sources. -/
def bh_enable (s : BhState) : BhState :=
  if s.count = 1 then
    if s.inIrq then
      { s with count := 0 }
    else
      { s with count := 0, pending := 0, drainAttempts := s.drainAttempts + 1 }
  else
    { s with count := s.count - 1 }

end Sched

namespace Hwmon

/-! ## Embedding of the i915 hwmon front-end (i915_hwmon.c)

Register state is a function from register addresses to 32-bit values;
every lock, wakeref and register access is recorded in an event trace.
Hardware register reads whose value the environment controls (the energy
counter) are passed in as explicit inputs.  Address 0 plays the role of
INVALID_MMIO_REG. -/

def EINVAL : Int := 22

def EOPNOTSUPP : Int := 95

def UINT_MAX : Nat := 2 ^ 32 - 1

def U32_MASK : Nat := 2 ^ 32 - 1

def U64_MOD : Nat := 2 ^ 64

def SF_TIME : Nat := 1000

def SF_POWER : Nat := 1000000

def SF_ENERGY : Nat := 1000000

/-- i915_mmio_reg_valid: the register is not INVALID_MMIO_REG (address 0). -/
def i915_mmio_reg_valid (r : Nat) : Bool := decide (r ≠ 0)

/-- Lock, power-management and register effects of the hwmon paths. -/
inductive Ev where
  | mutexLock
  | mutexUnlock
  | rpmGet
  | rpmPut
  | regRead (reg : Nat)
  | regWrite (reg : Nat) (val : Nat)
deriving DecidableEq

/-- Register file: address to current 32-bit value. -/
def RegFile : Type := Nat → Nat

/-- DIV_ROUND_CLOSEST_ULL(x, d): unsigned division rounded to nearest. -/
def DIV_ROUND_CLOSEST_ULL (x d : Nat) : Nat := (x + d / 2) / d

/-- mul_u64_u32_shr(a, mul, shift): 128-bit product shifted right, truncated
to 64 bits. -/
def mul_u64_u32_shr (a mul shift : Nat) : Nat := ((a * mul) >>> shift) % U64_MOD

/-- intel_uncore_rmw: read the register, compute (old & ~clear) | set, and
write back only when the value changed. -/
def intel_uncore_rmw (regs : RegFile) (reg clear set : Nat) :
    RegFile × List Ev :=
  let old := regs reg
  let val := ((old &&& (U32_MASK ^^^ (clear &&& U32_MASK))) ||| (set &&& U32_MASK)) &&& U32_MASK
  if val ≠ old then
    (Function.update regs reg val, [Ev.regRead reg, Ev.regWrite reg val])
  else
    (regs, [Ev.regRead reg])

/-- hwm_locked_with_pm_intel_uncore_rmw: take the hwmon mutex, hold a
runtime-pm wakeref around the read-modify-write, release both. -/
def hwm_locked_with_pm_intel_uncore_rmw (regs : RegFile) (reg clear set : Nat) :
    RegFile × List Ev :=
  let r := intel_uncore_rmw regs reg clear set
  (r.1, Ev.mutexLock :: Ev.rpmGet :: r.2 ++ [Ev.rpmPut, Ev.mutexUnlock])

/-- hwm_field_scale_and_write: scale the value into hardware units and
read-modify-write the field through the locked, pm-awake bracket. -/
def hwm_field_scale_and_write
    (regs : RegFile) (rgadr field_msk field_shift nshift scale_factor lval : Nat) :
    RegFile × List Ev :=
  let nval := DIV_ROUND_CLOSEST_ULL ((lval <<< nshift) % U64_MOD) scale_factor % 2 ^ 32
  let bits_to_clear := field_msk
  let bits_to_set := (nval <<< field_shift) &&& field_msk
  hwm_locked_with_pm_intel_uncore_rmw regs rgadr bits_to_clear bits_to_set

/-- REG_FIELD_GET with the mask and its shift given explicitly. -/
def fieldGet (mask shift r : Nat) : Nat := (r &&& mask) >>> shift

/-- REG_FIELD_PREP with the mask and its shift given explicitly. -/
def fieldPrep (mask shift v : Nat) : Nat := (v <<< shift) &&& mask

def PKG_PWR_LIM_1_TIME : Nat := 0xFE0000

def PKG_PWR_LIM_1_TIME_X : Nat := 0xC00000

def PKG_PWR_LIM_1_TIME_Y : Nat := 0x3E0000

def PKG_MAX_WIN : Nat := 0x7F

def PKG_MAX_WIN_X : Nat := 0x60

def PKG_MAX_WIN_Y : Nat := 0x1F

def PKG_MAX_WIN_DEFAULT : Nat := 0x12

/-- Environment of the power1_max_interval store path. -/
structure StoreEnv where
  scl_shift_time : Nat
  pkg_power_sku : Nat
  pkg_rapl_limit : Nat
deriving DecidableEq

/-- hwm_power1_max_interval_store (after a successful kstrtoul parse of
`val0`; the parse-failure path performs no register access at all).  Reads
pkg_power_sku under a wakeref when valid (the workaround then overrides the
value with the default window in both branches), validates the requested
interval, converts it to the hardware 1.x*2^y encoding, and performs the
read-modify-write of pkg_rapl_limit through the locked, pm-awake bracket.
Returns 0 for success (the source returns the sysfs buffer count). -/
def hwm_power1_max_interval_store (env : StoreEnv) (regs : RegFile) (val0 : Nat) :
    (Int × RegFile) × List Ev :=
  let x_w : Nat := 2
  let pre :=
    if i915_mmio_reg_valid env.pkg_power_sku then
      (fieldPrep PKG_MAX_WIN 0 PKG_MAX_WIN_DEFAULT,
        [Ev.rpmGet, Ev.regRead env.pkg_power_sku, Ev.rpmPut])
    else
      (fieldPrep PKG_MAX_WIN 0 PKG_MAX_WIN_DEFAULT, ([] : List Ev))
  let x := fieldGet PKG_MAX_WIN_X 5 pre.1
  let y := fieldGet PKG_MAX_WIN_Y 0 pre.1
  let tau4 := (((1 <<< x_w) ||| x) <<< y) % U64_MOD
  let max_win := mul_u64_u32_shr tau4 SF_TIME (env.scl_shift_time + x_w)
  if val0 > max_win then ((-EINVAL, regs), pre.2)
  else
    let val := DIV_ROUND_CLOSEST_ULL ((val0 <<< env.scl_shift_time) % U64_MOD) SF_TIME
    if val = 0 then ((-EINVAL, regs), pre.2)
    else
      let y2 := Nat.log2 val
      let x2 := (((val - (1 <<< y2)) <<< x_w) >>> y2) % 2 ^ 32
      let rxy := fieldPrep PKG_PWR_LIM_1_TIME_X 22 x2 ||| fieldPrep PKG_PWR_LIM_1_TIME_Y 17 y2
      let w := hwm_locked_with_pm_intel_uncore_rmw regs env.pkg_rapl_limit PKG_PWR_LIM_1_TIME rxy
      ((0, w.1), pre.2 ++ w.2)

/-- Scan the trace keeping track of whether the mutex and a wakeref are
held; a register write is bracketed only when both hold at the write. -/
def bracketedFrom (locked wake : Bool) : List Ev → Bool
  | [] => true
  | e :: es =>
    match e with
    | .regWrite _ _ => locked && wake && bracketedFrom locked wake es
    | .mutexLock => bracketedFrom true wake es
    | .mutexUnlock => bracketedFrom false wake es
    | .rpmGet => bracketedFrom locked true es
    | .rpmPut => bracketedFrom locked false es
    | .regRead _ => bracketedFrom locked wake es

/-- Every register write in the trace happens with the hwmon mutex held and
a runtime-pm wakeref held. -/
def writesLockedAndAwake (es : List Ev) : Bool := bracketedFrom false false es

/-- Energy accumulator state (struct hwm_energy_info). -/
structure HwmEnergyInfo where
  reg_val_prev : Nat
  accum_energy : Nat
deriving DecidableEq

/-- The two candidate energy registers (address 0 = INVALID_MMIO_REG). -/
structure EnergyRegs where
  energy_status_all : Nat
  energy_status_tile : Nat
deriving DecidableEq

/-- Register selection of hwm_energy: the per-tile register when the
drvdata's gt number is non-negative, the package-wide one otherwise. -/
def hwm_energy_reg (gt_n : Int) (rg : EnergyRegs) : Nat :=
  if 0 ≤ gt_n then rg.energy_status_tile else rg.energy_status_all

/-- Result of hwm_energy: return code, updated accumulator state, and the
value stored through the output pointer (`none` when left unwritten). -/
structure EnergyOut where
  ret : Int
  ei : HwmEnergyInfo
  energy : Option Nat
deriving DecidableEq

/-- hwm_energy: select the energy register; bail out with -EOPNOTSUPP when
it is invalid; otherwise, under the hwmon mutex, read the 32-bit counter
(`reg_val` is the value the hardware read returns), add the wraparound-aware
delta into the accumulator, and report the scaled accumulator. -/
def hwm_energy (gt_n : Int) (rg : EnergyRegs) (scl_shift_energy : Nat)
    (ei : HwmEnergyInfo) (reg_val : Nat) : EnergyOut × List Ev :=
  let rgaddr := hwm_energy_reg gt_n rg
  if i915_mmio_reg_valid rgaddr then
    let accum :=
      if ei.reg_val_prev ≤ reg_val then
        ei.accum_energy + (reg_val - ei.reg_val_prev)
      else
        ei.accum_energy + (UINT_MAX - ei.reg_val_prev + reg_val)
    let energy := mul_u64_u32_shr accum SF_ENERGY scl_shift_energy
    (⟨0, ⟨reg_val, accum⟩, some energy⟩,
      [Ev.mutexLock, Ev.rpmGet, Ev.regRead rgaddr, Ev.rpmPut, Ev.mutexUnlock])
  else
    (⟨-EOPNOTSUPP, ei, none⟩, [])

end Hwmon

namespace Scalers

open Hwmon

/-! ## Embedding of intel_atomic_setup_scalers (intel_atomic.c)

The crtc scaler state, the per-plane new states reachable through the
atomic state, and the crtc's constant properties are explicit records.
The C loop mutates state through pointers and keeps a `plane_state`
variable alive across iterations; the embedding threads exactly that
state (including the stale `plane_state` variable) through a fold. -/

def ERANGE : Int := 34

def SKL_CRTC_INDEX : Nat := 31

def PS_SCALER_MODE_NORMAL : Nat := 0

def PS_SCALER_MODE_PLANAR : Nat := 1 <<< 29

def PS_PLANE_Y_SEL (id : Nat) : Nat := id <<< 5

/-- The framebuffer facts the scaler setup consults. -/
structure FbData where
  is_yuv : Bool
  num_planes : Nat
  is_yuv_semiplanar : Bool
  srcW : Nat
  srcH : Nat
  dstW : Nat
  dstH : Nat
deriving DecidableEq

/-- The new plane state (and plane identity) for one scaler-user index. -/
structure PlaneUser where
  pipe : Nat
  plane_id : Nat
  is_hdr : Bool
  linked : Option Nat
  scaler_id : Int
  fb : Option FbData
deriving DecidableEq

/-- One hardware scaler's staged state. -/
structure IntelScaler where
  in_use : Bool
  mode : Nat
deriving DecidableEq

/-- struct intel_crtc_scaler_state: staged users, the crtc scaler id and
the per-scaler array. -/
structure ScalerState where
  scaler_users : Nat
  scaler_id : Int
  scalers : List IntelScaler
deriving DecidableEq

/-- The constant crtc/platform facts the setup consults. -/
structure CrtcEnv where
  num_scalers : Nat
  pipe : Nat
  display_ver : Nat
deriving DecidableEq

/-- Modelled from the spec: the generic atomic-commit framework's
drm_rect_calc_hscale / drm_rect_calc_vscale helpers, which are delegated to
and not part of this core: they return the required fixed-point scaling
factor, a negative error when that factor falls outside [mn, mx], and 0 for
a degenerate destination. -/
def drm_rect_calc_scale (srcW dstW : Nat) (mn mx : Int) : Int :=
  if dstW = 0 then 0
  else
    let scale : Int := Int.ofNat (srcW / dstW)
    if scale < mn ∨ mx < scale then -ERANGE else scale

/-- hweight32: number of set bits in a 32-bit word. -/
def hweight32 (n : Nat) : Nat := (List.range 32).countP (fun i => n.testBit i)

/-- Find the first free scaler among the crtc's `num` scalers. -/
def findFreeScaler (scalers : List IntelScaler) (num : Nat) : Option Nat :=
  (List.range num).find? (fun j => (scalers[j]?.map (fun sc => !sc.in_use)).getD false)

/-- In-place update of the scaler array at index `j`. -/
def setAt (l : List IntelScaler) (j : Nat) (f : IntelScaler → IntelScaler) : List IntelScaler :=
  match l, j with
  | [], _ => []
  | x :: xs, 0 => f x :: xs
  | x :: xs, j + 1 => x :: setAt xs j f

/-- Mark scaler `j` as in use. -/
def markInUse (scalers : List IntelScaler) (j : Nat) : List IntelScaler :=
  setAt scalers j (fun sc => { sc with in_use := true })

/-- Record the chosen mode on scaler `j`. -/
def setScalerMode (scalers : List IntelScaler) (j : Nat) (mode : Nat) : List IntelScaler :=
  setAt scalers j (fun sc => { sc with mode := mode })

/-- Scaler mode selection of intel_atomic_setup_scaler: planar mode (with
the linked Y plane selected) for multi-planar YUV on non-HDR planes,
normal mode otherwise. -/
def scalerMode (ps : Option PlaneUser) : Nat :=
  match ps with
  | some p =>
    match p.fb with
    | some fb =>
      if fb.is_yuv && decide (1 < fb.num_planes) then
        if p.is_hdr then PS_SCALER_MODE_NORMAL
        else
          match p.linked with
          | some lid => PS_SCALER_MODE_PLANAR ||| PS_PLANE_Y_SEL lid
          | none => PS_SCALER_MODE_PLANAR
      else PS_SCALER_MODE_NORMAL
    | none => PS_SCALER_MODE_NORMAL
  | none => PS_SCALER_MODE_NORMAL

/-- Platform scaling-factor limits: on display version 14+ only scaler 0
may downscale vertically beyond 1.0; otherwise the limits depend on the
format being YUV semiplanar. -/
def scaleLimits (display_ver : Nat) (fb : FbData) (sid : Int) : Int × Int :=
  if 14 ≤ display_ver then
    (0x30000 - 1, if sid = 0 then 0x30000 - 1 else 0x10000)
  else if !fb.is_yuv_semiplanar then (0x30000 - 1, 0x30000 - 1)
  else (0x20000 - 1, 0x20000 - 1)

/-- The required-scaling check of intel_atomic_setup_scaler: both computed
factors must be non-negative (drm_rect_calc_* reports out-of-limit scaling
as a negative value).  Vacuously true without a plane state or fb. -/
def scaleFactorsOk (display_ver : Nat) (ps : Option PlaneUser) (sid : Int) : Bool :=
  match ps with
  | some p =>
    match p.fb with
    | some fb =>
      let lims := scaleLimits display_ver fb sid
      let hscale := drm_rect_calc_scale fb.srcW fb.dstW 1 lims.1
      let vscale := drm_rect_calc_scale fb.srcH fb.dstH 1 lims.2
      decide (0 ≤ hscale) && decide (0 ≤ vscale)
    | none => true
  | none => true

/-- intel_atomic_setup_scaler: claim a free scaler when the user has none
yet (marking it in_use), fail with -EINVAL when none is free, fail with
-EINVAL when the required scaling exceeds the platform limits, otherwise
record the scaler mode.  Returns (ret, updated scaler_state, updated
*scaler_id). -/
def intel_atomic_setup_scaler (env : CrtcEnv) (ss : ScalerState)
    (ps : Option PlaneUser) (scaler_id : Int) : Int × ScalerState × Int :=
  let claimed :=
    if scaler_id < 0 then
      match findFreeScaler ss.scalers env.num_scalers with
      | some j => ({ ss with scalers := markInUse ss.scalers j }, (j : Int))
      | none => (ss, scaler_id)
    else (ss, scaler_id)
  let ss1 := claimed.1
  let sid := claimed.2
  if sid < 0 then (-EINVAL, ss1, sid)
  else
    let mode := scalerMode ps
    if scaleFactorsOk env.display_ver ps sid then
      (0, { ss1 with scalers := setScalerMode ss1.scalers sid.toNat mode }, sid)
    else (-EINVAL, ss1, sid)

/-- Mutable state of the setup loop: the scaler state, the per-index plane
scaler ids (written back through the `scaler_id` pointer), and the C
`plane_state` local variable, which persists across iterations. -/
structure SetupSt where
  ss : ScalerState
  ids : List Int
  psVar : Option PlaneUser
deriving DecidableEq

/-- The walk over the 32 scaler_users bits of intel_atomic_setup_scalers:
skip clear bits, treat bit 31 as the crtc (panel fitter) scaler, skip a
plane whose pipe does not match the crtc (the drm_WARN_ON continue), and
abort on the first negative return. -/
def setupScalersGo (env : CrtcEnv) (users : Nat) (planes : Nat → PlaneUser) :
    List Nat → SetupSt → Int × SetupSt
  | [], st => (0, st)
  | i :: rest, st =>
    if !users.testBit i then setupScalersGo env users planes rest st
    else if i = SKL_CRTC_INDEX then
      let r := intel_atomic_setup_scaler env st.ss st.psVar st.ss.scaler_id
      let st' : SetupSt := { st with ss := { r.2.1 with scaler_id := r.2.2 } }
      if r.1 < 0 then (r.1, st') else setupScalersGo env users planes rest st'
    else
      let p := planes i
      if p.pipe ≠ env.pipe then setupScalersGo env users planes rest st
      else
        let sid0 := st.ids[i]?.getD p.scaler_id
        let r := intel_atomic_setup_scaler env st.ss (some p) sid0
        let st' : SetupSt := ⟨r.2.1, st.ids.set i r.2.2, some p⟩
        if r.1 < 0 then (r.1, st') else setupScalersGo env users planes rest st'

/-- intel_atomic_setup_scalers: fail upfront with -EINVAL when more scaler
users are staged than the crtc has scalers, otherwise walk the user bits
assigning scalers.  Returns the result code together with the final
(possibly partially updated) state, as the C code mutates in place. -/
def intel_atomic_setup_scalers (env : CrtcEnv) (planes : Nat → PlaneUser)
    (ss : ScalerState) : Int × SetupSt :=
  let num_scalers_need := hweight32 ss.scaler_users
  let ids0 := (List.range 32).map (fun i => (planes i).scaler_id)
  if env.num_scalers < num_scalers_need then (-EINVAL, ⟨ss, ids0, none⟩)
  else setupScalersGo env ss.scaler_users planes (List.range 32) ⟨ss, ids0, none⟩

/-- Has user index `i` an assigned scaler in state `st`?  Index 31 is the
crtc scaler, the others are plane scaler ids. -/
def assignedIn (st : SetupSt) (i : Nat) : Prop :=
  if i = SKL_CRTC_INDEX then 0 ≤ st.ss.scaler_id
  else 0 ≤ st.ids[i]?.getD (-1)

instance (st : SetupSt) (i : Nat) : Decidable (assignedIn st i) := by
  unfold assignedIn
  infer_instance

end Scalers

/-! ## Theorems -/

namespace Tasklet

/-- Claim C1: tasklet_unlock_spin_wait never returns while the unit's
TASKLET_STATE_RUN bit is set — whenever it returns, the state word it
observed at exit has the RUN bit clear, so a waiter (e.g. cancel_sync)
cannot resume while the handler still runs elsewhere. -/
theorem tasklet_unlock_spin_wait_run_clear (rt : Bool) (obs : List Nat)
    (cpu : LocalCpu) (v : Nat)
    (h : (tasklet_unlock_spin_wait rt obs cpu).1 = some v) :
    test_bit TASKLET_STATE_RUN v = false := by
  induction obs generalizing cpu with
  | nil => simp [tasklet_unlock_spin_wait] at h
  | cons w obs ih =>
    by_cases hw : test_bit TASKLET_STATE_RUN w
    · by_cases hrt : rt
      · rw [tasklet_unlock_spin_wait, if_pos hw, if_pos hrt] at h
        exact ih _ h
      · rw [tasklet_unlock_spin_wait, if_pos hw, if_neg hrt] at h
        exact ih _ h
    · rw [tasklet_unlock_spin_wait, if_neg hw] at h
      simp only [Option.some.injEq] at h
      rw [← h]
      exact Bool.not_eq_true _ ▸ (by simpa using hw)

/-- Witness for C1 at a concrete input: one spinning observation (RUN set)
followed by an observation with RUN clear. -/
theorem tasklet_unlock_spin_wait_run_clear_witness :
    test_bit TASKLET_STATE_RUN 0 = false :=
  tasklet_unlock_spin_wait_run_clear true [2, 0] ⟨0, []⟩ 0 (by decide)

/-- Claim C2: the yield strategy is selected by the preempt-RT build flag:
with it, every spinning iteration performs exactly one disable() immediately
followed by the matching enable(); without it, each iteration yields with a
plain cpu_relax; and the observable exit condition (the returned
observation) is identical under both strategies. -/
theorem tasklet_unlock_spin_wait_yield_policy (obs : List Nat) (cpu cpu' : LocalCpu) :
    (tasklet_unlock_spin_wait true obs cpu).1 = (tasklet_unlock_spin_wait false obs cpu').1
    ∧ (tasklet_unlock_spin_wait true obs cpu).2.2 = specWaitTrace true obs
    ∧ (tasklet_unlock_spin_wait false obs cpu').2.2 = specWaitTrace false obs
    ∧ specYieldEvents true = [Event.bhDisable, Event.bhEnable]
    ∧ specYieldEvents false = [Event.cpuRelax] := by
  refine ⟨?_, ?_, ?_, rfl, rfl⟩
  · induction obs generalizing cpu cpu' with
    | nil => rfl
    | cons w obs ih =>
      by_cases hw : test_bit TASKLET_STATE_RUN w
      · rw [tasklet_unlock_spin_wait, tasklet_unlock_spin_wait, if_pos hw, if_pos hw]
        simpa using ih _ _
      · rw [tasklet_unlock_spin_wait, tasklet_unlock_spin_wait, if_neg hw, if_neg hw]
  · induction obs generalizing cpu with
    | nil => rfl
    | cons w obs ih =>
      by_cases hw : test_bit TASKLET_STATE_RUN w
      · rw [tasklet_unlock_spin_wait, specWaitTrace, if_pos hw, if_pos hw]
        simpa [specYieldEvents] using ih _
      · rw [tasklet_unlock_spin_wait, specWaitTrace, if_neg hw, if_neg hw]
  · induction obs generalizing cpu' with
    | nil => rfl
    | cons w obs ih =>
      by_cases hw : test_bit TASKLET_STATE_RUN w
      · rw [tasklet_unlock_spin_wait, specWaitTrace, if_pos hw, if_pos hw]
        simpa [specYieldEvents] using ih _
      · rw [tasklet_unlock_spin_wait, specWaitTrace, if_neg hw, if_neg hw]

/-- Witness for C2 at a concrete observation schedule. -/
theorem tasklet_unlock_spin_wait_yield_policy_witness :
    (tasklet_unlock_spin_wait true [2, 0] ⟨0, []⟩).1
      = (tasklet_unlock_spin_wait false [2, 0] ⟨0, []⟩).1
    ∧ (tasklet_unlock_spin_wait true [2, 0] ⟨0, []⟩).2.2 = specWaitTrace true [2, 0]
    ∧ (tasklet_unlock_spin_wait false [2, 0] ⟨0, []⟩).2.2 = specWaitTrace false [2, 0]
    ∧ specYieldEvents true = [Event.bhDisable, Event.bhEnable]
    ∧ specYieldEvents false = [Event.cpuRelax] :=
  tasklet_unlock_spin_wait_yield_policy [2, 0] ⟨0, []⟩ ⟨0, []⟩

/-- Claim C6: for every observation schedule, tasklet_unlock_spin_wait
leaves the local per-processor state exactly as it found it (the
disable/enable bracket is restored, the queue untouched) and every event it
performs is a read or a yield — it never writes the unit's state word,
never enqueues, dequeues or runs the unit. -/
theorem tasklet_unlock_spin_wait_frame (rt : Bool) (obs : List Nat) (cpu : LocalCpu) :
    (tasklet_unlock_spin_wait rt obs cpu).2.1 = cpu
    ∧ ∀ e ∈ (tasklet_unlock_spin_wait rt obs cpu).2.2, e.writesUnit = false := by
  induction obs generalizing cpu with
  | nil => exact ⟨rfl, by simp [tasklet_unlock_spin_wait]⟩
  | cons w obs ih =>
    by_cases hw : test_bit TASKLET_STATE_RUN w
    · by_cases hrt : rt
      · rw [tasklet_unlock_spin_wait, if_pos hw, if_pos hrt]
        refine ⟨?_, ?_⟩
        · simpa using (ih _).1
        · intro e he
          simp only [List.mem_cons] at he
          rcases he with rfl | rfl | rfl | he
          · rfl
          · rfl
          · rfl
          · exact (ih _).2 e he
      · rw [tasklet_unlock_spin_wait, if_pos hw, if_neg hrt]
        refine ⟨(ih _).1, ?_⟩
        intro e he
        simp only [List.mem_cons] at he
        rcases he with rfl | rfl | he
        · rfl
        · rfl
        · exact (ih _).2 e he
    · rw [tasklet_unlock_spin_wait, if_neg hw]
      exact ⟨rfl, by intro e he; simp only [List.mem_cons, List.not_mem_nil, or_false] at he; subst he; rfl⟩

/-- Witness for C6: the local state survives a concrete run unchanged and
a concrete event of its trace is not a write. -/
theorem tasklet_unlock_spin_wait_frame_witness :
    (tasklet_unlock_spin_wait true [2, 0] ⟨1, [5]⟩).2.1 = (⟨1, [5]⟩ : LocalCpu)
    ∧ Event.writesUnit (Event.readState 2) = false :=
  ⟨(tasklet_unlock_spin_wait_frame true [2, 0] ⟨1, [5]⟩).1,
    (tasklet_unlock_spin_wait_frame true [2, 0] ⟨1, [5]⟩).2 (Event.readState 2) (by decide)⟩

end Tasklet

namespace Sched

theorem scheduleN_schedRunPending (m : Nat) :
    scheduleN m UnitState.schedRunPending = UnitState.schedRunPending := by
  induction m with
  | zero => rfl
  | succ m ih => simpa [scheduleN, schedule] using ih

/-- Claim C3: scheduling a RUNNING unit N times (N ≥ 1) leaves it in
SCHEDULED_RUN_PENDING and yields exactly one additional run after the
current run completes — schedule calls coalesce while already scheduled. -/
theorem schedule_coalesces (n : Nat) (hn : 1 ≤ n) :
    scheduleN n UnitState.running = UnitState.schedRunPending
    ∧ runsAfterComplete (scheduleN n UnitState.running) = 1 := by
  obtain ⟨m, rfl⟩ : ∃ m, n = m + 1 := ⟨n - 1, by omega⟩
  have h : scheduleN (m + 1) UnitState.running = UnitState.schedRunPending := by
    show scheduleN m (schedule UnitState.running) = UnitState.schedRunPending
    simpa [schedule] using scheduleN_schedRunPending m
  exact ⟨h, by rw [h]; rfl⟩

/-- Witness for C3 at N = 3. -/
theorem schedule_coalesces_witness :
    scheduleN 3 UnitState.running = UnitState.schedRunPending
    ∧ runsAfterComplete (scheduleN 3 UnitState.running) = 1 :=
  schedule_coalesces 3 (by decide)

theorem testBit_foldl_runPass (reraise : Nat → Nat) (pending : Nat) (c : Nat) :
    ∀ (l : List Nat) (acc : Nat),
      (Nat.testBit acc c = true
        ∨ (c ∈ l ∧ Nat.testBit pending c = true ∧ Nat.testBit (reraise c) c = true)) →
      Nat.testBit
        (l.foldl (fun acc d => if Nat.testBit pending d then acc ||| reraise d else acc) acc)
        c = true := by
  intro l
  induction l with
  | nil =>
    intro acc h
    rcases h with h | ⟨h, _⟩
    · simpa using h
    · exact absurd h (List.not_mem_nil c)
  | cons d l ih =>
    intro acc h
    rcases h with h | ⟨hm, hp, hr⟩
    · refine ih _ (Or.inl ?_)
      by_cases hd : Nat.testBit pending d
      · simp [hd, Nat.testBit_lor, h]
      · simpa [hd] using h
    · rcases List.mem_cons.mp hm with rfl | hm
      · refine ih _ (Or.inl ?_)
        simp [hp, Nat.testBit_lor, hr]
      · exact ih _ (Or.inr ⟨hm, hp, hr⟩)

theorem testBit_runPass (reraise : Nat → Nat) (nr pending c : Nat)
    (hc : c < nr) (hp : Nat.testBit pending c = true)
    (hre : Nat.testBit (reraise c) c = true) :
    Nat.testBit (runPass reraise nr pending) c = true :=
  testBit_foldl_runPass reraise pending c (List.range nr) 0
    (Or.inr ⟨List.mem_range.mpr hc, hp, hre⟩)

theorem dispatchLoop_reraise_aux (reraise : Nat → Nat) (nr c : Nat)
    (hc : c < nr) (hre : Nat.testBit (reraise c) c = true) :
    ∀ (b pending : Nat), Nat.testBit pending c = true →
      (dispatchLoop reraise nr (b + 1) pending).passes = b + 1
      ∧ (dispatchLoop reraise nr (b + 1) pending).workerWoken = true
      ∧ Nat.testBit (dispatchLoop reraise nr (b + 1) pending).pending c = true := by
  intro b
  induction b with
  | zero =>
    intro pending hp
    have hpz : pending ≠ 0 := by
      intro h; rw [h] at hp; simp [Nat.zero_testBit] at hp
    have hrun := testBit_runPass reraise nr pending c hc hp hre
    have hruns : runPass reraise nr pending ≠ 0 := by
      intro h; rw [h] at hrun; simp [Nat.zero_testBit] at hrun
    rw [dispatchLoop]
    simp only [if_neg hpz, if_neg hruns, if_pos rfl]
    exact ⟨rfl, rfl, hrun⟩
  | succ b ih =>
    intro pending hp
    have hpz : pending ≠ 0 := by
      intro h; rw [h] at hp; simp [Nat.zero_testBit] at hp
    have hrun := testBit_runPass reraise nr pending c hc hp hre
    have hruns : runPass reraise nr pending ≠ 0 := by
      intro h; rw [h] at hrun; simp [Nat.zero_testBit] at hrun
    have hb : b + 1 ≠ 0 := Nat.succ_ne_zero b
    rw [dispatchLoop]
    simp only [if_neg hpz, if_neg hruns, if_neg hb]
    obtain ⟨h1, h2, h3⟩ := ih (runPass reraise nr pending) hrun
    exact ⟨by rw [h1], h2, h3⟩

/-- Claim C4: with a registered handler for class `c` that unconditionally
re-raises its own class on every pass, the inline Dispatch Loop terminates
after exactly the configured retry count `R` of passes, leaves `c`'s
pending bit set, and wakes the processor's Background Worker. -/
theorem dispatch_retry_limit (reraise : Nat → Nat) (nr c R pending : Nat)
    (hc : c < nr) (hp : Nat.testBit pending c = true)
    (hre : Nat.testBit (reraise c) c = true) (hR : 1 ≤ R) :
    (dispatchLoop reraise nr R pending).passes = R
    ∧ (dispatchLoop reraise nr R pending).workerWoken = true
    ∧ Nat.testBit (dispatchLoop reraise nr R pending).pending c = true := by
  obtain ⟨b, rfl⟩ : ∃ b, R = b + 1 := ⟨R - 1, by omega⟩
  exact dispatchLoop_reraise_aux reraise nr c hc hre b pending hp

/-- Witness for C4: a single class whose handler re-raises it, retry count
10: exactly 10 passes, bit left set, worker woken. -/
theorem dispatch_retry_limit_witness :
    (dispatchLoop (fun _ => 1) 1 10 1).passes = 10
    ∧ (dispatchLoop (fun _ => 1) 1 10 1).workerWoken = true
    ∧ Nat.testBit (dispatchLoop (fun _ => 1) 1 10 1).pending 0 = true :=
  dispatch_retry_limit (fun _ => 1) 1 0 10 1 (by decide) (by decide) (by decide) (by decide)

/-- Claim C5: from a balanced state, disable(); disable(); enable() leaves
deferred work suspended (counter 1, no drain attempted, pending intact);
only the second enable() returns the counter to zero, and it attempts the
drain exactly then — unless executing in interrupt context, in which case
no drain is attempted (deferred). -/
theorem bh_nesting_depth_two (s : BhState) (h0 : s.count = 0) :
    (bh_enable (bh_disable (bh_disable s))).count = 1
    ∧ (bh_enable (bh_disable (bh_disable s))).drainAttempts = s.drainAttempts
    ∧ (bh_enable (bh_disable (bh_disable s))).pending = s.pending
    ∧ (bh_enable (bh_enable (bh_disable (bh_disable s)))).count = 0
    ∧ (s.inIrq = false →
        (bh_enable (bh_enable (bh_disable (bh_disable s)))).drainAttempts
          = s.drainAttempts + 1)
    ∧ (s.inIrq = true →
        (bh_enable (bh_enable (bh_disable (bh_disable s)))).drainAttempts
          = s.drainAttempts) := by
  obtain ⟨c, p, irq, d⟩ := s
  simp only at h0
  subst h0
  cases irq <;> simp [bh_disable, bh_enable]

/-- Witness for C5 from the concrete idle state. -/
theorem bh_nesting_depth_two_witness :
    (bh_enable (bh_disable (bh_disable (⟨0, 7, false, 0⟩ : BhState)))).count = 1
    ∧ (bh_enable (bh_disable (bh_disable (⟨0, 7, false, 0⟩ : BhState)))).drainAttempts = 0
    ∧ (bh_enable (bh_disable (bh_disable (⟨0, 7, false, 0⟩ : BhState)))).pending = 7
    ∧ (bh_enable (bh_enable (bh_disable (bh_disable (⟨0, 7, false, 0⟩ : BhState))))).count = 0
    ∧ (false = false →
        (bh_enable (bh_enable (bh_disable (bh_disable (⟨0, 7, false, 0⟩ : BhState))))).drainAttempts
          = 0 + 1)
    ∧ (false = true →
        (bh_enable (bh_enable (bh_disable (bh_disable (⟨0, 7, false, 0⟩ : BhState))))).drainAttempts
          = 0) :=
  bh_nesting_depth_two ⟨0, 7, false, 0⟩ (by decide)

end Sched

namespace Hwmon

theorem writesLockedAndAwake_bracket (regs : RegFile) (reg clear set : Nat) :
    writesLockedAndAwake (hwm_locked_with_pm_intel_uncore_rmw regs reg clear set).2 = true := by
  simp only [hwm_locked_with_pm_intel_uncore_rmw, intel_uncore_rmw, writesLockedAndAwake]
  split_ifs <;> rfl

/-- Claim C7: every read-modify-write the monitoring front-end's write
paths perform — hwm_field_scale_and_write (power1_max) and the
power1_max_interval store — goes through hwm_locked_with_pm_intel_uncore_rmw:
the hwmon mutex is taken before the register access, a runtime-pm wakeref is
held for its duration, and the mutex is released afterwards; no register
write in these paths happens outside that bracket. -/
theorem hwm_write_paths_locked (regs : RegFile)
    (rgadr field_msk field_shift nshift scale_factor lval : Nat)
    (env : StoreEnv) (val0 : Nat) :
    writesLockedAndAwake
        (hwm_field_scale_and_write regs rgadr field_msk field_shift nshift scale_factor lval).2
      = true
    ∧ (hwm_field_scale_and_write regs rgadr field_msk field_shift nshift scale_factor lval).2
      = (hwm_locked_with_pm_intel_uncore_rmw regs rgadr field_msk
          (((DIV_ROUND_CLOSEST_ULL ((lval <<< nshift) % U64_MOD) scale_factor % 2 ^ 32)
              <<< field_shift) &&& field_msk)).2
    ∧ writesLockedAndAwake (hwm_power1_max_interval_store env regs val0).2 = true := by
  refine ⟨?_, rfl, ?_⟩
  · exact writesLockedAndAwake_bracket regs rgadr field_msk _
  · simp only [hwm_power1_max_interval_store, hwm_locked_with_pm_intel_uncore_rmw,
      intel_uncore_rmw, writesLockedAndAwake]
    split_ifs <;> rfl


/-- Counterexample to claim C8 as stated: with previous reading 5 and new
reading 3, the code adds UINT_MAX - 5 + 3 = 2^32 - 3 to the accumulator,
not the full 32-bit modular delta (3 + 2^32 - 5) % 2^32 = 2^32 - 2. -/
theorem hwm_energy_wrap_delta_counterexample :
    (hwm_energy (-1) ⟨1, 0⟩ 14 ⟨5, 100⟩ 3).1.ei.accum_energy
      ≠ 100 + ((3 + 2 ^ 32 - 5) % 2 ^ 32) := by decide

/-- Claim C8 (amended): each successful hwm_energy call replaces the stored
previous reading with the new one and increases accum_energy by exactly
new - prev when the counter did not wrap, and by new + (2^32 - 1) - prev
(one less than a full 2^32 wraparound, since the code uses UINT_MAX) when
it did; accum_energy is therefore non-decreasing, and the reported energy
is accum_energy * SF_ENERGY right-shifted by scl_shift_energy (64-bit
truncated). -/
theorem hwm_energy_accum (gt_n : Int) (rg : EnergyRegs) (scl : Nat)
    (ei : HwmEnergyInfo) (reg_val : Nat)
    (hvalid : i915_mmio_reg_valid (hwm_energy_reg gt_n rg) = true)
    (hprev : ei.reg_val_prev < 2 ^ 32) :
    (hwm_energy gt_n rg scl ei reg_val).1.ei.accum_energy
      = ei.accum_energy
        + (if ei.reg_val_prev ≤ reg_val then reg_val - ei.reg_val_prev
           else reg_val + (2 ^ 32 - 1) - ei.reg_val_prev)
    ∧ ei.accum_energy ≤ (hwm_energy gt_n rg scl ei reg_val).1.ei.accum_energy
    ∧ (hwm_energy gt_n rg scl ei reg_val).1.ei.reg_val_prev = reg_val
    ∧ (hwm_energy gt_n rg scl ei reg_val).1.energy
      = some ((((hwm_energy gt_n rg scl ei reg_val).1.ei.accum_energy * SF_ENERGY) >>> scl)
          % U64_MOD)
    ∧ (hwm_energy gt_n rg scl ei reg_val).1.ret = 0 := by
  refine ⟨?_, ?_, ?_, ?_, ?_⟩
  · by_cases h : ei.reg_val_prev ≤ reg_val <;>
      (simp [hwm_energy, hvalid, h, UINT_MAX]; try omega)
  · by_cases h : ei.reg_val_prev ≤ reg_val <;>
      (simp [hwm_energy, hvalid, h, UINT_MAX]; try omega)
  · simp [hwm_energy, hvalid]
  · by_cases h : ei.reg_val_prev ≤ reg_val <;>
      simp [hwm_energy, hvalid, h, mul_u64_u32_shr]
  · simp [hwm_energy, hvalid]

/-- Witness for C8 (amended) at a wrapping concrete input. -/
theorem hwm_energy_accum_witness :
    (hwm_energy (-1) ⟨1, 0⟩ 14 ⟨5, 100⟩ 3).1.ei.accum_energy
      = 100 + (if 5 ≤ 3 then 3 - 5 else 3 + (2 ^ 32 - 1) - 5)
    ∧ 100 ≤ (hwm_energy (-1) ⟨1, 0⟩ 14 ⟨5, 100⟩ 3).1.ei.accum_energy
    ∧ (hwm_energy (-1) ⟨1, 0⟩ 14 ⟨5, 100⟩ 3).1.ei.reg_val_prev = 3
    ∧ (hwm_energy (-1) ⟨1, 0⟩ 14 ⟨5, 100⟩ 3).1.energy
      = some ((((hwm_energy (-1) ⟨1, 0⟩ 14 ⟨5, 100⟩ 3).1.ei.accum_energy * SF_ENERGY) >>> 14)
          % U64_MOD)
    ∧ (hwm_energy (-1) ⟨1, 0⟩ 14 ⟨5, 100⟩ 3).1.ret = 0 :=
  hwm_energy_accum (-1) ⟨1, 0⟩ 14 ⟨5, 100⟩ 3 (by decide) (by decide)

/-- Claim C9: hwm_energy selects the per-tile energy register when gt_n is
non-negative and the package-wide one otherwise; when the selected register
is invalid it returns -EOPNOTSUPP with an empty effect trace (so no lock is
taken and no hardware is read), the accumulator state and the output are
untouched; on the valid path it returns 0. -/
theorem hwm_energy_select_and_error (gt_n : Int) (rg : EnergyRegs) (scl : Nat)
    (ei : HwmEnergyInfo) (reg_val : Nat) :
    (0 ≤ gt_n → hwm_energy_reg gt_n rg = rg.energy_status_tile)
    ∧ (gt_n < 0 → hwm_energy_reg gt_n rg = rg.energy_status_all)
    ∧ (i915_mmio_reg_valid (hwm_energy_reg gt_n rg) = false →
        (hwm_energy gt_n rg scl ei reg_val).1.ret = -EOPNOTSUPP
        ∧ (hwm_energy gt_n rg scl ei reg_val).1.ei = ei
        ∧ (hwm_energy gt_n rg scl ei reg_val).1.energy = none
        ∧ (hwm_energy gt_n rg scl ei reg_val).2 = [])
    ∧ (i915_mmio_reg_valid (hwm_energy_reg gt_n rg) = true →
        (hwm_energy gt_n rg scl ei reg_val).1.ret = 0) := by
  refine ⟨?_, ?_, ?_, ?_⟩
  · intro h
    simp [hwm_energy_reg, h]
  · intro h
    simp [hwm_energy_reg, not_le.mpr h]
  · intro h
    simp [hwm_energy, h]
  · intro h
    simp [hwm_energy, h]

/-- Witness for C9 with the per-tile register selected and invalid. -/
theorem hwm_energy_select_and_error_witness :
    hwm_energy_reg 0 ⟨5, 0⟩ = 0
    ∧ (hwm_energy 0 ⟨5, 0⟩ 14 ⟨1, 2⟩ 7).1.ret = -EOPNOTSUPP
    ∧ (hwm_energy 0 ⟨5, 0⟩ 14 ⟨1, 2⟩ 7).1.ei = ⟨1, 2⟩
    ∧ (hwm_energy 0 ⟨5, 0⟩ 14 ⟨1, 2⟩ 7).1.energy = none
    ∧ (hwm_energy 0 ⟨5, 0⟩ 14 ⟨1, 2⟩ 7).2 = [] := by
  have h := hwm_energy_select_and_error 0 ⟨5, 0⟩ 14 ⟨1, 2⟩ 7
  have h3 := h.2.2.1 (by decide)
  exact ⟨h.1 (by decide), h3.1, h3.2.1, h3.2.2.1, h3.2.2.2⟩


end Hwmon

namespace Scalers

open Hwmon

theorem setAt_get?_self (l : List IntelScaler) (f : IntelScaler → IntelScaler) :
    ∀ j, (setAt l j f)[j]? = l[j]?.map f := by
  induction l with
  | nil => intro j; cases j <;> simp [setAt]
  | cons x xs ih => intro j; cases j with
    | zero => simp [setAt]
    | succ j => simpa [setAt] using ih j

theorem setAt_get?_ne (l : List IntelScaler) (f : IntelScaler → IntelScaler) :
    ∀ j k, k ≠ j → (setAt l j f)[k]? = l[k]? := by
  induction l with
  | nil => intro j k _; cases j <;> simp [setAt]
  | cons x xs ih =>
    intro j k hk
    cases j with
    | zero =>
      cases k with
      | zero => exact absurd rfl hk
      | succ k => simp [setAt]
    | succ j =>
      cases k with
      | zero => simp [setAt]
      | succ k => simpa [setAt] using ih j k (by omega)

theorem setAt_length (l : List IntelScaler) (f : IntelScaler → IntelScaler) :
    ∀ j, (setAt l j f).length = l.length := by
  induction l with
  | nil => intro j; cases j <;> rfl
  | cons x xs ih => intro j; cases j with
    | zero => rfl
    | succ j => simpa [setAt] using ih j

theorem findFreeScaler_some (scalers : List IntelScaler) (num j : Nat)
    (h : findFreeScaler scalers num = some j) :
    j < scalers.length
    ∧ (scalers[j]?.map (fun sc => sc.in_use)) = some false := by
  unfold findFreeScaler at h
  have hp := List.find?_some h
  cases hg : scalers[j]? with
  | none => rw [hg] at hp; simp at hp
  | some sc =>
    rw [hg] at hp
    simp at hp
    have hlt : j < scalers.length := by
      by_contra hc
      rw [List.getElem?_eq_none (by omega)] at hg
      exact Option.noConfusion hg
    refine ⟨hlt, ?_⟩
    simp [hp]

theorem markInUse_in_use (l : List IntelScaler) (j : Nat) (hj : j < l.length) :
    ((markInUse l j)[j]?).map IntelScaler.in_use = some true := by
  unfold markInUse
  rw [setAt_get?_self]
  cases hg : l[j]? with
  | none =>
    have := List.getElem?_eq_some_iff.mpr ⟨hj, rfl⟩
    rw [hg] at this
    exact Option.noConfusion this
  | some sc => rfl

theorem setScalerMode_in_use (l : List IntelScaler) (j m k : Nat) :
    ((setScalerMode l j m)[k]?).map IntelScaler.in_use
      = l[k]?.map IntelScaler.in_use := by
  unfold setScalerMode
  by_cases hk : k = j
  · subst hk
    rw [setAt_get?_self]
    cases l[k]? <;> rfl
  · rw [setAt_get?_ne _ _ _ _ hk]

theorem setup_scaler_ret_cases (env : CrtcEnv) (ss : ScalerState)
    (ps : Option PlaneUser) (sid : Int) :
    (intel_atomic_setup_scaler env ss ps sid).1 = 0
    ∨ (intel_atomic_setup_scaler env ss ps sid).1 = -EINVAL := by
  by_cases h1 : sid < 0
  · cases hf : findFreeScaler ss.scalers env.num_scalers with
    | none => simp [intel_atomic_setup_scaler, h1, hf]
    | some j =>
      have hj : ¬ ((j : Int) < 0) := by omega
      by_cases h2 : scaleFactorsOk env.display_ver ps (j : Int) <;>
        simp [intel_atomic_setup_scaler, h1, hf, hj, h2]
  · by_cases h2 : scaleFactorsOk env.display_ver ps sid <;>
      simp [intel_atomic_setup_scaler, h1, h2]

theorem setup_scaler_ok_sid (env : CrtcEnv) (ss : ScalerState)
    (ps : Option PlaneUser) (sid : Int)
    (hok : (intel_atomic_setup_scaler env ss ps sid).1 = 0) :
    0 ≤ (intel_atomic_setup_scaler env ss ps sid).2.2 := by
  by_cases h1 : sid < 0
  · cases hf : findFreeScaler ss.scalers env.num_scalers with
    | none => simp [intel_atomic_setup_scaler, h1, hf, EINVAL] at hok
    | some j =>
      have hj : ¬ ((j : Int) < 0) := by omega
      by_cases h2 : scaleFactorsOk env.display_ver ps (j : Int)
      · simp [intel_atomic_setup_scaler, h1, hf, hj, h2]
      · simp [intel_atomic_setup_scaler, h1, hf, hj, h2, EINVAL] at hok
  · by_cases h2 : scaleFactorsOk env.display_ver ps sid
    · simp [intel_atomic_setup_scaler, h1, h2]
      omega
    · simp [intel_atomic_setup_scaler, h1, h2, EINVAL] at hok

theorem setup_scaler_scaler_id_field (env : CrtcEnv) (ss : ScalerState)
    (ps : Option PlaneUser) (sid : Int) :
    (intel_atomic_setup_scaler env ss ps sid).2.1.scaler_id = ss.scaler_id := by
  by_cases h1 : sid < 0
  · cases hf : findFreeScaler ss.scalers env.num_scalers with
    | none => simp [intel_atomic_setup_scaler, h1, hf]
    | some j =>
      have hj : ¬ ((j : Int) < 0) := by omega
      by_cases h2 : scaleFactorsOk env.display_ver ps (j : Int) <;>
        simp [intel_atomic_setup_scaler, h1, hf, hj, h2]
  · by_cases h2 : scaleFactorsOk env.display_ver ps sid <;>
      simp [intel_atomic_setup_scaler, h1, h2]

theorem setup_scaler_err (env : CrtcEnv) (ss : ScalerState)
    (ps : Option PlaneUser) (sid : Int)
    (h : (intel_atomic_setup_scaler env ss ps sid).1 ≠ 0) :
    (intel_atomic_setup_scaler env ss ps sid).1 = -EINVAL
    ∧ ((intel_atomic_setup_scaler env ss ps sid).2.2 < 0
       ∨ scaleFactorsOk env.display_ver ps (intel_atomic_setup_scaler env ss ps sid).2.2
          = false) := by
  by_cases h1 : sid < 0
  · cases hf : findFreeScaler ss.scalers env.num_scalers with
    | none => simp [intel_atomic_setup_scaler, h1, hf]
    | some j =>
      have hj : ¬ ((j : Int) < 0) := by omega
      by_cases h2 : scaleFactorsOk env.display_ver ps (j : Int)
      · simp [intel_atomic_setup_scaler, h1, hf, hj, h2] at h
      · simp [intel_atomic_setup_scaler, h1, hf, hj, h2]
  · by_cases h2 : scaleFactorsOk env.display_ver ps sid
    · simp [intel_atomic_setup_scaler, h1, h2] at h
    · simp [intel_atomic_setup_scaler, h1, h2]

theorem setup_scaler_claims (env : CrtcEnv) (ss : ScalerState)
    (ps : Option PlaneUser) (sid : Int) (hneg : sid < 0)
    (hok : (intel_atomic_setup_scaler env ss ps sid).1 = 0) :
    0 ≤ (intel_atomic_setup_scaler env ss ps sid).2.2
    ∧ ((intel_atomic_setup_scaler env ss ps sid).2.1.scalers[
        (intel_atomic_setup_scaler env ss ps sid).2.2.toNat]?).map IntelScaler.in_use
      = some true := by
  cases hf : findFreeScaler ss.scalers env.num_scalers with
  | none => simp [intel_atomic_setup_scaler, hneg, hf, EINVAL] at hok
  | some j =>
    have hj : ¬ ((j : Int) < 0) := by omega
    obtain ⟨hlt, _⟩ := findFreeScaler_some ss.scalers env.num_scalers j hf
    by_cases h2 : scaleFactorsOk env.display_ver ps (j : Int)
    · refine ⟨?_, ?_⟩
      · simp [intel_atomic_setup_scaler, hneg, hf, hj, h2]
      · have hcomb : ((setScalerMode (markInUse ss.scalers j) j (scalerMode ps))[j]?).map
            IntelScaler.in_use = some true := by
          rw [setScalerMode_in_use]
          exact markInUse_in_use ss.scalers j hlt
        obtain ⟨a, ha, hain⟩ := Option.map_eq_some'.mp hcomb
        simp [intel_atomic_setup_scaler, hneg, hf, hj, h2]
        exact ⟨a, ha, hain⟩
    · simp [intel_atomic_setup_scaler, hneg, hf, hj, h2, EINVAL] at hok

theorem go_contract (env : CrtcEnv) (users : Nat) (planes : Nat → PlaneUser) :
    ∀ (l : List Nat) (st : SetupSt),
      (∀ i ∈ l, i < 32) → l.Nodup → st.ids.length = 32 →
      (∀ i ∈ l, users.testBit i = true → i ≠ SKL_CRTC_INDEX → (planes i).pipe = env.pipe) →
      ((setupScalersGo env users planes l st).1 = 0
        ∨ (setupScalersGo env users planes l st).1 = -EINVAL)
      ∧ ((setupScalersGo env users planes l st).1 = 0 →
          (∀ i ∈ l, users.testBit i = true →
              assignedIn (setupScalersGo env users planes l st).2 i)
          ∧ (∀ i, i ∉ l → assignedIn st i →
              assignedIn (setupScalersGo env users planes l st).2 i)) := by
  intro l
  induction l with
  | nil =>
    intro st _ _ _ _
    refine ⟨Or.inl rfl, ?_⟩
    intro _
    exact ⟨by simp, fun i _ h => h⟩
  | cons j rest ih =>
    intro st hlt hnd hlen hpipe
    have hlt' : ∀ i ∈ rest, i < 32 := fun i hi => hlt i (List.mem_cons_of_mem j hi)
    have hnd' : rest.Nodup := (List.nodup_cons.mp hnd).2
    have hjrest : j ∉ rest := (List.nodup_cons.mp hnd).1
    have hpipe' : ∀ i ∈ rest, users.testBit i = true → i ≠ SKL_CRTC_INDEX →
        (planes i).pipe = env.pipe :=
      fun i hi => hpipe i (List.mem_cons_of_mem j hi)
    by_cases hb : users.testBit j = true
    · by_cases hj : j = SKL_CRTC_INDEX
      · subst hj
        by_cases hr : (intel_atomic_setup_scaler env st.ss st.psVar st.ss.scaler_id).1 < 0
        · have hne : (intel_atomic_setup_scaler env st.ss st.psVar st.ss.scaler_id).1 ≠ 0 := by
            omega
          have hgoerr : (setupScalersGo env users planes (SKL_CRTC_INDEX :: rest) st).1
              = (intel_atomic_setup_scaler env st.ss st.psVar st.ss.scaler_id).1 := by
            simp [setupScalersGo, hb, hr]
          refine ⟨?_, ?_⟩
          · right
            rw [hgoerr]
            exact (setup_scaler_err env st.ss st.psVar st.ss.scaler_id hne).1
          · intro h0
            rw [hgoerr] at h0
            exact absurd h0 hne
        · have hret := setup_scaler_ret_cases env st.ss st.psVar st.ss.scaler_id
          have hr0 : (intel_atomic_setup_scaler env st.ss st.psVar st.ss.scaler_id).1 = 0 := by
            rcases hret with h | h
            · exact h
            · exfalso
              rw [h] at hr
              exact hr (by decide)
          have hsid := setup_scaler_ok_sid env st.ss st.psVar st.ss.scaler_id hr0
          set r := intel_atomic_setup_scaler env st.ss st.psVar st.ss.scaler_id with hrdef
          set st1 : SetupSt := { st with ss := { r.2.1 with scaler_id := r.2.2 } } with hst1
          have hgo : setupScalersGo env users planes (SKL_CRTC_INDEX :: rest) st
              = setupScalersGo env users planes rest st1 := by
            simp [setupScalersGo, hb, ← hrdef, hr, hst1]
          have hlen1 : st1.ids.length = 32 := hlen
          have hih := ih st1 hlt' hnd' hlen1 hpipe'
          rw [hgo]
          refine ⟨hih.1, ?_⟩
          intro h0
          obtain ⟨hrest, hpres⟩ := hih.2 h0
          refine ⟨?_, ?_⟩
          · intro i hi hbit
            rcases List.mem_cons.mp hi with hieq | hi
            · subst hieq
              refine hpres SKL_CRTC_INDEX hjrest ?_
              simp only [assignedIn, if_pos rfl, hst1]
              exact hsid
            · exact hrest i hi hbit
          · intro i hi hass
            have hi1 : i ∉ rest := fun hc => hi (List.mem_cons_of_mem _ hc)
            have hine : i ≠ SKL_CRTC_INDEX := fun hc => hi (hc ▸ List.mem_cons_self _ _)
            refine hpres i hi1 ?_
            simpa [assignedIn, hst1, hine] using hass
      · have hp : (planes j).pipe = env.pipe :=
          hpipe j (List.mem_cons_self j rest) hb hj
        by_cases hr : (intel_atomic_setup_scaler env st.ss (some (planes j))
            (st.ids[j]?.getD (planes j).scaler_id)).1 < 0
        · have hne : (intel_atomic_setup_scaler env st.ss (some (planes j))
              (st.ids[j]?.getD (planes j).scaler_id)).1 ≠ 0 := by omega
          have hgoerr : (setupScalersGo env users planes (j :: rest) st).1
              = (intel_atomic_setup_scaler env st.ss (some (planes j))
                  (st.ids[j]?.getD (planes j).scaler_id)).1 := by
            simp [setupScalersGo, hb, hj, hp, hr]
          refine ⟨?_, ?_⟩
          · right
            rw [hgoerr]
            exact (setup_scaler_err env st.ss (some (planes j))
              (st.ids[j]?.getD (planes j).scaler_id) hne).1
          · intro h0
            rw [hgoerr] at h0
            exact absurd h0 hne
        · have hret := setup_scaler_ret_cases env st.ss (some (planes j))
            (st.ids[j]?.getD (planes j).scaler_id)
          have hr0 : (intel_atomic_setup_scaler env st.ss (some (planes j))
              (st.ids[j]?.getD (planes j).scaler_id)).1 = 0 := by
            rcases hret with h | h
            · exact h
            · exfalso
              rw [h] at hr
              exact hr (by decide)
          have hsid := setup_scaler_ok_sid env st.ss (some (planes j))
            (st.ids[j]?.getD (planes j).scaler_id) hr0
          set r := intel_atomic_setup_scaler env st.ss (some (planes j))
            (st.ids[j]?.getD (planes j).scaler_id) with hrdef
          set st1 : SetupSt := ⟨r.2.1, st.ids.set j r.2.2, some (planes j)⟩ with hst1
          have hgo : setupScalersGo env users planes (j :: rest) st
              = setupScalersGo env users planes rest st1 := by
            simp [setupScalersGo, hb, hj, hp, ← hrdef, hr, hst1]
          have hlen1 : st1.ids.length = 32 := by
            simp [hst1, hlen]
          have hih := ih st1 hlt' hnd' hlen1 hpipe'
          rw [hgo]
          refine ⟨hih.1, ?_⟩
          intro h0
          obtain ⟨hrest, hpres⟩ := hih.2 h0
          refine ⟨?_, ?_⟩
          · intro i hi hbit
            rcases List.mem_cons.mp hi with hieq | hi
            · subst hieq
              refine hpres i hjrest ?_
              have hjlt : i < st.ids.length := by
                rw [hlen]
                exact hlt i (List.mem_cons_self i rest)
              simp only [assignedIn, hst1, if_neg hj]
              rw [List.getElem?_set_eq_of_lt _ hjlt]
              simpa using hsid
            · exact hrest i hi hbit
          · intro i hi hass
            have hi1 : i ∉ rest := fun hc => hi (List.mem_cons_of_mem _ hc)
            have hij : i ≠ j := fun hc => hi (hc ▸ List.mem_cons_self _ _)
            refine hpres i hi1 ?_
            by_cases hic : i = SKL_CRTC_INDEX
            · subst hic
              simp only [assignedIn, if_pos rfl] at hass ⊢
              simpa [hst1, setup_scaler_scaler_id_field, hrdef] using hass
            · simp only [assignedIn, if_neg hic] at hass ⊢
              simpa [hst1, List.getElem?_set_ne (fun hc => hij hc.symm)] using hass
    · have hb' : users.testBit j = false := by
        cases hx : users.testBit j
        · rfl
        · exact absurd hx hb
      have hgo : setupScalersGo env users planes (j :: rest) st
          = setupScalersGo env users planes rest st := by
        simp [setupScalersGo, hb']
      rw [hgo]
      have hih := ih st hlt' hnd' hlen hpipe'
      refine ⟨hih.1, ?_⟩
      intro h0
      obtain ⟨hrest, hpres⟩ := hih.2 h0
      refine ⟨?_, ?_⟩
      · intro i hi hbit
        rcases List.mem_cons.mp hi with hieq | hi
        · subst hieq
          rw [hbit] at hb'
          exact absurd hb' (by simp)
        · exact hrest i hi hbit
      · intro i hi hass
        exact hpres i (fun hc => hi (List.mem_cons_of_mem _ hc)) hass

/-- Claim C10: intel_atomic_setup_scalers returns -EINVAL leaving the state
untouched when more scaler users are staged than the crtc has scalers;
otherwise (given the staged plane users sit on this crtc's pipe, which the
code asserts) it returns 0 or -EINVAL, and returns 0 only when every
requested user received a scaler; a per-user setup failure is -EINVAL and
happens exactly when no free scaler could be claimed or the requested
scaling factors exceed the platform limits, while a successful claim of a
fresh scaler marks it in_use. -/
theorem setup_scalers_contract (env : CrtcEnv) (planes : Nat → PlaneUser)
    (ss : ScalerState)
    (hpipe : ∀ i, i < 32 → ss.scaler_users.testBit i = true → i ≠ SKL_CRTC_INDEX →
        (planes i).pipe = env.pipe) :
    (hweight32 ss.scaler_users > env.num_scalers →
        (intel_atomic_setup_scalers env planes ss).1 = -EINVAL
        ∧ (intel_atomic_setup_scalers env planes ss).2.ss = ss
        ∧ (intel_atomic_setup_scalers env planes ss).2.ids
            = (List.range 32).map (fun i => (planes i).scaler_id))
    ∧ (hweight32 ss.scaler_users ≤ env.num_scalers →
        ((intel_atomic_setup_scalers env planes ss).1 = 0
          ∨ (intel_atomic_setup_scalers env planes ss).1 = -EINVAL)
        ∧ ((intel_atomic_setup_scalers env planes ss).1 = 0 →
            ∀ i, i < 32 → ss.scaler_users.testBit i = true →
              assignedIn (intel_atomic_setup_scalers env planes ss).2 i))
    ∧ (∀ ss1 ps sid, (intel_atomic_setup_scaler env ss1 ps sid).1 ≠ 0 →
        (intel_atomic_setup_scaler env ss1 ps sid).1 = -EINVAL
        ∧ ((intel_atomic_setup_scaler env ss1 ps sid).2.2 < 0
           ∨ scaleFactorsOk env.display_ver ps (intel_atomic_setup_scaler env ss1 ps sid).2.2
              = false))
    ∧ (∀ ss1 ps sid, sid < 0 → (intel_atomic_setup_scaler env ss1 ps sid).1 = 0 →
        0 ≤ (intel_atomic_setup_scaler env ss1 ps sid).2.2
        ∧ ((intel_atomic_setup_scaler env ss1 ps sid).2.1.scalers[
            (intel_atomic_setup_scaler env ss1 ps sid).2.2.toNat]?).map IntelScaler.in_use
          = some true) := by
  refine ⟨?_, ?_, fun ss1 ps sid h => setup_scaler_err env ss1 ps sid h,
    fun ss1 ps sid hneg hok => setup_scaler_claims env ss1 ps sid hneg hok⟩
  · intro hgt
    have hcond : env.num_scalers < hweight32 ss.scaler_users := hgt
    refine ⟨?_, ?_, ?_⟩ <;> simp [intel_atomic_setup_scalers, hcond]
  · intro hle
    have hcond : ¬ env.num_scalers < hweight32 ss.scaler_users := by omega
    have hgo := go_contract env ss.scaler_users planes (List.range 32)
      ⟨ss, (List.range 32).map (fun i => (planes i).scaler_id), none⟩
      (fun i hi => List.mem_range.mp hi) (List.nodup_range 32)
      (by simp)
      (fun i hi hbit hne => hpipe i (List.mem_range.mp hi) hbit hne)
    have heq : intel_atomic_setup_scalers env planes ss
        = setupScalersGo env ss.scaler_users planes (List.range 32)
            ⟨ss, (List.range 32).map (fun i => (planes i).scaler_id), none⟩ := by
      simp [intel_atomic_setup_scalers, hcond]
    rw [heq]
    refine ⟨hgo.1, ?_⟩
    intro h0
    exact fun i hi hbit => (hgo.2 h0).1 i (List.mem_range.mpr hi) hbit

/-- Witness for C10: a single staged plane user on a crtc with two free
scalers is assigned scaler 0 and the call succeeds. -/
theorem setup_scalers_contract_witness :
    (intel_atomic_setup_scalers ⟨2, 0, 12⟩ (fun _ => ⟨0, 1, false, none, -1, none⟩)
        ⟨1, -1, [⟨false, 0⟩, ⟨false, 0⟩]⟩).1 = 0
    ∧ assignedIn (intel_atomic_setup_scalers ⟨2, 0, 12⟩
        (fun _ => ⟨0, 1, false, none, -1, none⟩) ⟨1, -1, [⟨false, 0⟩, ⟨false, 0⟩]⟩).2 0 := by
  have h := setup_scalers_contract ⟨2, 0, 12⟩ (fun _ => ⟨0, 1, false, none, -1, none⟩)
    ⟨1, -1, [⟨false, 0⟩, ⟨false, 0⟩]⟩ (by decide)
  have h2 := h.2.1 (by decide)
  have hret : (intel_atomic_setup_scalers ⟨2, 0, 12⟩ (fun _ => ⟨0, 1, false, none, -1, none⟩)
      ⟨1, -1, [⟨false, 0⟩, ⟨false, 0⟩]⟩).1 = 0 := by decide
  exact ⟨hret, (h2.2 hret) 0 (by decide) (by decide)⟩

end Scalers
